import Mathlib

/-!
Verification of the content-retrieval and normalization pipeline of the
Zhihu2Markdown userscript (`src/unnamed/part_000`).  JavaScript functions are
shallowly embedded as Lean definitions; browser builtins (URL resolution,
JSON parsing, network requests) appear as explicit oracles in a `JsEnv`
record, and the ECMAScript date arithmetic used by `Date`/`toISOString` is
modelled by the proleptic Gregorian calendar computation below.
-/

/-! ## Gregorian calendar arithmetic (model of ECMAScript `Date` time↔date).

`civilFromDays`/`daysFromCivil` are the standard era-based conversions between
a day count from the Unix epoch and a calendar date; they agree with
ECMAScript's `YearFromTime`/`MonthFromTime`/`DateFromTime` and `MakeDay`. -/

def yoeOfDoe (doe : Nat) : Nat :=
  (doe - doe / 1460 + doe / 36524 - doe / 146096) / 365

def doyOfDoe (doe : Nat) : Nat :=
  doe - (365 * yoeOfDoe doe + yoeOfDoe doe / 4 - yoeOfDoe doe / 100)

def mpOfDoe (doe : Nat) : Nat := (5 * doyOfDoe doe + 2) / 153

def dayOfDoe (doe : Nat) : Nat :=
  doyOfDoe doe - (153 * mpOfDoe doe + 2) / 5 + 1

def monthOfDoe (doe : Nat) : Nat :=
  if mpOfDoe doe < 10 then mpOfDoe doe + 3 else mpOfDoe doe - 9

def civilFromDays (z : Int) : Int × Nat × Nat :=
  let doe := ((z + 719468) % 146097).toNat
  ((z + 719468) / 146097 * 400 + yoeOfDoe doe +
      (if monthOfDoe doe ≤ 2 then 1 else 0),
    monthOfDoe doe, dayOfDoe doe)

/-- Year-of-era of an adjusted (March-based) year. -/
def yoeOfYear (ya : Int) : Nat := (ya - ya / 400 * 400).toNat

def daysFromCivil (y : Int) (m d : Nat) : Int :=
  (y - (if m ≤ 2 then 1 else 0)) / 400 * 146097 +
    ((yoeOfYear (y - (if m ≤ 2 then 1 else 0)) * 365 +
        yoeOfYear (y - (if m ≤ 2 then 1 else 0)) / 4 -
        yoeOfYear (y - (if m ≤ 2 then 1 else 0)) / 100 +
        ((153 * (if m > 2 then m - 3 else m + 9) + 2) / 5 + d - 1) : Nat) : Int) -
    719468

set_option maxHeartbeats 4000000 in
/-- The year-start day count of the year-of-era computed from a day-of-era
brackets that day-of-era: day-of-year is in [0, 365]. -/
theorem yoe_day_bounds (doe yoe : Nat) (h : doe < 146097)
    (hyoe : yoe = (doe - doe / 1460 + doe / 36524 - doe / 146096) / 365) :
    365 * yoe + yoe / 4 - yoe / 100 ≤ doe ∧
      doe - (365 * yoe + yoe / 4 - yoe / 100) ≤ 365 := by
  have hf : doe / 1460 ≤ 100 := by omega
  interval_cases hfv : doe / 1460 <;>
    first
    | omega
    | (have he : doe / 36524 ≤ 4 := by omega
       interval_cases hev : doe / 36524 <;> omega)

/-- Within one 400-year era, converting a day-of-era to (yoe, m, d) and back
is the identity, with all components in range. -/
theorem civil_inner_roundtrip (doe yoe doy mp d m : Nat) (h : doe < 146097)
    (hyoe : yoe = (doe - doe / 1460 + doe / 36524 - doe / 146096) / 365)
    (hdoy : doy = doe - (365 * yoe + yoe / 4 - yoe / 100))
    (hmp : mp = (5 * doy + 2) / 153)
    (hd : d = doy - (153 * mp + 2) / 5 + 1)
    (hm : m = if mp < 10 then mp + 3 else mp - 9) :
    yoe ≤ 399 ∧ 1 ≤ m ∧ m ≤ 12 ∧ 1 ≤ d ∧ d ≤ 31 ∧
      yoe * 365 + yoe / 4 - yoe / 100 +
        ((153 * (if m > 2 then m - 3 else m + 9) + 2) / 5 + d - 1) = doe := by
  have hyoe399 : yoe ≤ 399 := by omega
  obtain ⟨hstart, hdoy365⟩ := yoe_day_bounds doe yoe h hyoe
  have hmp11 : mp ≤ 11 := by omega
  have hmback : (if m > 2 then m - 3 else m + 9) = mp := by
    rcases Nat.lt_or_ge mp 10 with hlt | hge
    · have hmv : m = mp + 3 := by rw [hm, if_pos hlt]
      rw [hmv, if_pos (by omega)]
      omega
    · have hmv : m = mp - 9 := by rw [hm, if_neg (by omega)]
      rw [hmv, if_neg (by omega)]
      omega
  refine ⟨hyoe399, ?_, ?_, ?_, ?_, ?_⟩
  · split at hm <;> omega
  · split at hm <;> omega
  · omega
  · interval_cases hmpv : mp <;> omega
  · rw [hmback]; omega

/-- Evaluating `daysFromCivil` on a year split into era and year-of-era. -/
theorem daysFromCivil_reassemble (era : Int) (yoe m d : Nat) (hyoe : yoe ≤ 399) :
    daysFromCivil (era * 400 + yoe + (if m ≤ 2 then 1 else 0)) m d =
      era * 146097 +
        ((yoe * 365 + yoe / 4 - yoe / 100 +
          ((153 * (if m > 2 then m - 3 else m + 9) + 2) / 5 + d - 1) : Nat) : Int) -
        719468 := by
  unfold daysFromCivil
  have hya : era * 400 + (yoe : Int) + (if m ≤ 2 then 1 else 0) -
      (if m ≤ 2 then 1 else 0) = era * 400 + (yoe : Int) := by ring
  rw [hya]
  have hera : (era * 400 + (yoe : Int)) / 400 = era := by omega
  have hyoe2 : yoeOfYear (era * 400 + (yoe : Int)) = yoe := by
    unfold yoeOfYear
    rw [hera]
    omega
  rw [hera, hyoe2]

/-- `daysFromCivil` is a left inverse of `civilFromDays`, and the produced
month and day are in range. -/
theorem civilFromDays_spec (z : Int) :
    daysFromCivil (civilFromDays z).1 (civilFromDays z).2.1 (civilFromDays z).2.2 = z ∧
      1 ≤ (civilFromDays z).2.1 ∧ (civilFromDays z).2.1 ≤ 12 ∧
      1 ≤ (civilFromDays z).2.2 ∧ (civilFromDays z).2.2 ≤ 31 ∧
      yoeOfDoe ((z + 719468) % 146097).toNat ≤ 399 := by
  have hmodpos : 0 ≤ (z + 719468) % 146097 := Int.emod_nonneg _ (by norm_num)
  have hmodlt : (z + 719468) % 146097 < 146097 :=
    Int.emod_lt_of_pos _ (by norm_num)
  have hdoelt : ((z + 719468) % 146097).toNat < 146097 := by omega
  obtain ⟨hyoe399, hm1, hm12, hd1, hd31, hback⟩ :=
    civil_inner_roundtrip ((z + 719468) % 146097).toNat
      (yoeOfDoe ((z + 719468) % 146097).toNat)
      (doyOfDoe ((z + 719468) % 146097).toNat)
      (mpOfDoe ((z + 719468) % 146097).toNat)
      (dayOfDoe ((z + 719468) % 146097).toNat)
      (monthOfDoe ((z + 719468) % 146097).toNat)
      hdoelt rfl rfl rfl rfl rfl
  have hc : civilFromDays z =
      ((z + 719468) / 146097 * 400 +
          (yoeOfDoe ((z + 719468) % 146097).toNat : Int) +
          (if monthOfDoe ((z + 719468) % 146097).toNat ≤ 2 then 1 else 0),
        monthOfDoe ((z + 719468) % 146097).toNat,
        dayOfDoe ((z + 719468) % 146097).toNat) := rfl
  rw [hc]
  refine ⟨?_, hm1, hm12, hd1, hd31, hyoe399⟩
  rw [daysFromCivil_reassemble _ _ _ _ hyoe399, hback]
  omega

/-! ## Decimal digit strings -/

def natDigitsF : Nat → Nat → List Char → List Char
  | _, 0, acc => acc
  | 0, _, acc => acc
  | fuel + 1, n + 1, acc =>
    natDigitsF fuel ((n + 1) / 10) (Nat.digitChar ((n + 1) % 10) :: acc)

def natDigits (n : Nat) : List Char := natDigitsF n n []

def padDigits (k n : Nat) : List Char :=
  List.replicate (k - (natDigits n).length) '0' ++ natDigits n

def digitsVal (l : List Char) : Nat :=
  l.foldl (fun a c => a * 10 + (c.toNat - 48)) 0

def digitsValFrom (a : Nat) (l : List Char) : Nat :=
  l.foldl (fun a c => a * 10 + (c.toNat - 48)) a

theorem digitsValFrom_eq (a : Nat) (l : List Char) :
    digitsValFrom a l = a * 10 ^ l.length + digitsVal l := by
  induction l generalizing a with
  | nil => simp [digitsValFrom, digitsVal]
  | cons c t ih =>
    show digitsValFrom (a * 10 + (c.toNat - 48)) t =
      a * 10 ^ (t.length + 1) + digitsVal (c :: t)
    rw [ih]
    have h2 : digitsVal (c :: t) = (c.toNat - 48) * 10 ^ t.length + digitsVal t := by
      show digitsValFrom (0 * 10 + (c.toNat - 48)) t = _
      rw [ih]
      ring_nf
    rw [h2, pow_succ]
    ring

theorem digitsVal_append (l₁ l₂ : List Char) :
    digitsVal (l₁ ++ l₂) = digitsVal l₁ * 10 ^ l₂.length + digitsVal l₂ := by
  show digitsValFrom 0 (l₁ ++ l₂) = _
  rw [digitsValFrom, List.foldl_append]
  show digitsValFrom (digitsValFrom 0 l₁) l₂ = _
  rw [digitsValFrom_eq]
  rfl

theorem digitChar_isDigit (m : Nat) (h : m < 10) : (Nat.digitChar m).isDigit = true := by
  interval_cases m <;> decide

theorem digitChar_val (m : Nat) (h : m < 10) : (Nat.digitChar m).toNat - 48 = m := by
  interval_cases m <;> decide

theorem natDigitsF_fuel : ∀ fuel₁ fuel₂ m acc, m ≤ fuel₁ → m ≤ fuel₂ →
    natDigitsF fuel₁ m acc = natDigitsF fuel₂ m acc := by
  intro fuel₁
  induction fuel₁ with
  | zero =>
    intro fuel₂ m acc h1 _
    interval_cases m
    cases fuel₂ <;> rfl
  | succ f ih =>
    intro fuel₂ m acc h1 h2
    match m, fuel₂ with
    | 0, fuel₂ => cases fuel₂ <;> rfl
    | n + 1, g + 1 =>
      show natDigitsF f ((n + 1) / 10) _ = natDigitsF g ((n + 1) / 10) _
      exact ih g ((n + 1) / 10) _ (by omega) (by omega)

theorem natDigitsF_acc (fuel : Nat) : ∀ m acc, m ≤ fuel →
    natDigitsF fuel m acc = natDigitsF fuel m [] ++ acc := by
  induction fuel with
  | zero =>
    intro m acc h1
    interval_cases m
    rfl
  | succ f ih =>
    intro m acc h1
    match m with
    | 0 => rfl
    | n + 1 =>
      show natDigitsF f ((n + 1) / 10) (Nat.digitChar ((n + 1) % 10) :: acc)
        = natDigitsF f ((n + 1) / 10) [Nat.digitChar ((n + 1) % 10)] ++ acc
      rw [ih ((n + 1) / 10) _ (by omega),
        ih ((n + 1) / 10) [Nat.digitChar ((n + 1) % 10)] (by omega),
        List.append_assoc]
      rfl

theorem natDigits_succ (k : Nat) :
    natDigits (k + 1) = natDigits ((k + 1) / 10) ++ [Nat.digitChar ((k + 1) % 10)] := by
  show natDigitsF (k + 1) (k + 1) [] = _
  show natDigitsF k ((k + 1) / 10) [Nat.digitChar ((k + 1) % 10)] = _
  rw [natDigitsF_acc k ((k + 1) / 10) _ (by omega),
    natDigitsF_fuel k ((k + 1) / 10) ((k + 1) / 10) [] (by omega) (by omega)]
  rfl

theorem digitsVal_natDigits (n : Nat) : digitsVal (natDigits n) = n := by
  induction n using Nat.strong_induction_on with
  | _ n ih =>
    match n with
    | 0 => rfl
    | k + 1 =>
      rw [natDigits_succ, digitsVal_append,
        ih ((k + 1) / 10) (Nat.div_lt_self (Nat.succ_pos k) (by norm_num))]
      have hd : digitsVal [Nat.digitChar ((k + 1) % 10)] =
          (Nat.digitChar ((k + 1) % 10)).toNat - 48 := by
        show (0 * 10 + ((Nat.digitChar ((k + 1) % 10)).toNat - 48)) = _
        omega
      rw [hd, digitChar_val _ (Nat.mod_lt _ (by norm_num))]
      simp
      omega

theorem natDigits_all_digit (n : Nat) : ∀ c ∈ natDigits n, c.isDigit = true := by
  induction n using Nat.strong_induction_on with
  | _ n ih =>
    match n with
    | 0 => intro c hc; simp [natDigits, natDigitsF] at hc
    | k + 1 =>
      rw [natDigits_succ]
      intro c hc
      rcases List.mem_append.mp hc with hc | hc
      · exact ih ((k + 1) / 10) (Nat.div_lt_self (Nat.succ_pos k) (by norm_num)) c hc
      · simp at hc
        rw [hc]
        exact digitChar_isDigit _ (Nat.mod_lt _ (by norm_num))

theorem natDigits_length_le : ∀ n k : Nat, n < 10 ^ k → (natDigits n).length ≤ k := by
  intro n
  induction n using Nat.strong_induction_on with
  | _ n ih =>
    intro k h
    match n with
    | 0 => simp [natDigits, natDigitsF]
    | m + 1 =>
      match k with
      | 0 => norm_num at h
      | j + 1 =>
        rw [natDigits_succ]
        have h2 : (m + 1) / 10 < 10 ^ j := by
          have := pow_succ 10 j
          omega
        have := ih ((m + 1) / 10) (Nat.div_lt_self (Nat.succ_pos m) (by norm_num)) j h2
        simp [List.length_append]
        omega

theorem padDigits_length (k n : Nat) (h : n < 10 ^ k) : (padDigits k n).length = k := by
  have := natDigits_length_le n k h
  simp [padDigits, List.length_append, List.length_replicate]
  omega

theorem padDigits_all_digit (k n : Nat) : ∀ c ∈ padDigits k n, c.isDigit = true := by
  intro c hc
  rcases List.mem_append.mp hc with hc | hc
  · rw [List.eq_of_mem_replicate hc]; decide
  · exact natDigits_all_digit n c hc

theorem digitsVal_replicate_zero (j : Nat) (l : List Char) :
    digitsVal (List.replicate j '0' ++ l) = digitsVal l := by
  induction j with
  | zero => simp
  | succ i ih =>
    rw [List.replicate_succ, List.cons_append]
    show digitsValFrom (0 * 10 + ('0'.toNat - 48)) (List.replicate i '0' ++ l) = _
    have : (0 * 10 + ('0'.toNat - 48)) = 0 := by decide
    rw [this]
    exact ih

theorem digitsVal_padDigits (k n : Nat) : digitsVal (padDigits k n) = n := by
  rw [padDigits, digitsVal_replicate_zero, digitsVal_natDigits]

def readFixedNat (k : Nat) (l : List Char) : Option (Nat × List Char) :=
  if (l.take k).length = k ∧ (l.take k).all Char.isDigit
  then some (digitsVal (l.take k), l.drop k) else none

theorem readFixedNat_pad (k n : Nat) (h : n < 10 ^ k) (rest : List Char) :
    readFixedNat k (padDigits k n ++ rest) = some (n, rest) := by
  have hlen := padDigits_length k n h
  have htake : (padDigits k n ++ rest).take k = padDigits k n :=
    List.take_left' hlen
  have hdrop : (padDigits k n ++ rest).drop k = rest :=
    List.drop_left' hlen
  rw [readFixedNat, htake, hdrop, if_pos]
  · rw [digitsVal_padDigits]
  · exact ⟨hlen, List.all_eq_true.mpr fun c hc => padDigits_all_digit k n c hc⟩


/-! ## ISO timestamp formatting and parsing (model of `Date.prototype.toISOString`
and of `Date` parsing restricted to the date-time string format). -/

def pad2 (n : Nat) : List Char := padDigits 2 n

/-- Year field of `toISOString`: four digits for years 0..9999, expanded
sign-plus-six-digit form otherwise. -/
def yearChars (y : Int) : List Char :=
  if y < 0 then '-' :: padDigits 6 (-y).toNat
  else if y ≤ 9999 then padDigits 4 y.toNat
  else '+' :: padDigits 6 y.toNat

/-- The `YYYY-MM-DD` date portion of `toISOString` at epoch-millisecond `ms`. -/
def dateChars (ms : Int) : List Char :=
  yearChars (civilFromDays (ms / 86400000)).1 ++
    ('-' :: (pad2 (civilFromDays (ms / 86400000)).2.1 ++
      ('-' :: pad2 (civilFromDays (ms / 86400000)).2.2)))

def timeOfDayMs (ms : Int) : Nat := (ms % 86400000).toNat

/-- Full `toISOString` output at epoch-millisecond `ms`. -/
def isoChars (ms : Int) : List Char :=
  dateChars ms ++
    ('T' :: (pad2 (timeOfDayMs ms / 3600000) ++
      (':' :: (pad2 (timeOfDayMs ms % 3600000 / 60000) ++
        (':' :: (pad2 (timeOfDayMs ms % 60000 / 1000) ++
          ('.' :: (padDigits 3 (timeOfDayMs ms % 1000) ++ ['Z']))))))))

def msToDateString (ms : Int) : String := ⟨dateChars ms⟩

def isoStringOfMs (ms : Int) : String := ⟨isoChars ms⟩

def expectChar (c : Char) : List Char → Option (List Char)
  | x :: r => if x = c then some r else none
  | [] => none

def parseYear (l : List Char) : Option (Int × List Char) :=
  match l with
  | [] => none
  | c :: r =>
    if c = '+' then (readFixedNat 6 r).map (fun p => ((p.1 : Int), p.2))
    else if c = '-' then (readFixedNat 6 r).map (fun p => (-(p.1 : Int), p.2))
    else (readFixedNat 4 (c :: r)).map (fun p => ((p.1 : Int), p.2))







/-- Date part `year-month-day` of the date-time string. -/
def parseIsoDatePart (l : List Char) : Option (Int × Nat × Nat × List Char) :=
  (parseYear l).bind fun py =>
  (expectChar '-' py.2).bind fun r1 =>
  (readFixedNat 2 r1).bind fun pmo =>
  (expectChar '-' pmo.2).bind fun r2 =>
  (readFixedNat 2 r2).bind fun pd =>
  some (py.1, pmo.1, pd.1, pd.2)

/-- Time part `hh:mm:ss.mmm` of the date-time string. -/
def parseIsoTimePart (l : List Char) : Option (Nat × Nat × Nat × Nat × List Char) :=
  (readFixedNat 2 l).bind fun ph =>
  (expectChar ':' ph.2).bind fun r4 =>
  (readFixedNat 2 r4).bind fun pmi =>
  (expectChar ':' pmi.2).bind fun r5 =>
  (readFixedNat 2 r5).bind fun ps =>
  (expectChar '.' ps.2).bind fun r6 =>
  (readFixedNat 3 r6).bind fun pms =>
  some (ph.1, pmi.1, ps.1, pms.1, pms.2)

/-- Parser for the ECMAScript date-time string format (the `toISOString`
shape), returning the epoch-millisecond time value. -/
def parseIsoChars (l : List Char) : Option Int :=
  (parseIsoDatePart l).bind fun
    | (y, mo, d, r) =>
      (expectChar 'T' r).bind fun r2 =>
      (parseIsoTimePart r2).bind fun
        | (h, mi, s, ml, r3) =>
          (expectChar 'Z' r3).bind fun r4 =>
          if r4 = [] ∧ 1 ≤ mo ∧ mo ≤ 12 ∧ 1 ≤ d ∧ d ≤ 31 ∧
              h ≤ 24 ∧ mi ≤ 59 ∧ s ≤ 59 then
            some (daysFromCivil y mo d * 86400000 +
              ((h * 3600000 + mi * 60000 + s * 1000 + ml : Nat) : Int))
          else none

def jsDateParse (s : String) : Option Int := parseIsoChars s.data

theorem expectChar_cons (c : Char) (r : List Char) : expectChar c (c :: r) = some r := by
  simp [expectChar]

theorem parseYear_pad (y : Int) (hy : 0 ≤ y) (hy6 : y ≤ 999999) (rest : List Char) :
    parseYear (yearChars y ++ rest) = some (y, rest) := by
  rw [yearChars, if_neg (by omega)]
  rcases le_or_lt y 9999 with h4 | h4
  · rw [if_pos h4]
    have hlt : y.toNat < 10 ^ 4 := by norm_num; omega
    have hlen : (padDigits 4 y.toNat).length = 4 := padDigits_length _ _ hlt
    obtain ⟨c, t, hct⟩ : ∃ c t, padDigits 4 y.toNat = c :: t := by
      cases hpd : padDigits 4 y.toNat with
      | nil => rw [hpd] at hlen; simp at hlen
      | cons c t => exact ⟨c, t, rfl⟩
    have hcdig : c.isDigit = true := by
      apply padDigits_all_digit 4 y.toNat
      rw [hct]; exact List.mem_cons_self _ _
    rw [hct, List.cons_append, parseYear]
    have hc1 : ¬ c = '+' := by
      intro he; rw [he] at hcdig; simp [Char.isDigit] at hcdig
    have hc2 : ¬ c = '-' := by
      intro he; rw [he] at hcdig; simp [Char.isDigit] at hcdig
    rw [if_neg hc1, if_neg hc2, ← List.cons_append, ← hct,
      readFixedNat_pad 4 y.toNat hlt rest]
    simp
    omega
  · rw [if_neg (by omega)]
    have hlt : y.toNat < 10 ^ 6 := by norm_num; omega
    rw [List.cons_append, parseYear, if_pos rfl, readFixedNat_pad 6 y.toNat hlt rest]
    simp
    omega

theorem parseIsoDatePart_format (y : Int) (hy0 : 0 ≤ y) (hy6 : y ≤ 999999)
    (mo d : Nat) (hmo : mo < 100) (hd : d < 100) (rest : List Char) :
    parseIsoDatePart
      (yearChars y ++ ('-' :: (padDigits 2 mo ++ ('-' :: (padDigits 2 d ++ rest))))) =
      some (y, mo, d, rest) := by
  rw [parseIsoDatePart, parseYear_pad y hy0 hy6, Option.some_bind, expectChar_cons,
    Option.some_bind, readFixedNat_pad 2 mo (by norm_num; omega), Option.some_bind,
    expectChar_cons, Option.some_bind, readFixedNat_pad 2 d (by norm_num; omega),
    Option.some_bind]

theorem parseIsoTimePart_format (h mi s ml : Nat) (hh : h < 100) (hmi : mi < 100)
    (hs : s < 100) (hml : ml < 1000) (rest : List Char) :
    parseIsoTimePart
      (padDigits 2 h ++ (':' :: (padDigits 2 mi ++ (':' :: (padDigits 2 s ++
        ('.' :: (padDigits 3 ml ++ rest))))))) = some (h, mi, s, ml, rest) := by
  rw [parseIsoTimePart, readFixedNat_pad 2 h (by norm_num; omega), Option.some_bind,
    expectChar_cons, Option.some_bind, readFixedNat_pad 2 mi (by norm_num; omega),
    Option.some_bind, expectChar_cons, Option.some_bind,
    readFixedNat_pad 2 s (by norm_num; omega), Option.some_bind, expectChar_cons,
    Option.some_bind, readFixedNat_pad 3 ml (by norm_num; omega), Option.some_bind]

theorem parseIso_roundtrip (ms : Int) (h0 : 0 ≤ ms) (h1 : ms ≤ 8640000000000000) :
    parseIsoChars (isoChars ms) = some ms := by
  obtain ⟨hback, hm1, hm12, hd1, hd31, hyoe⟩ := civilFromDays_spec (ms / 86400000)
  have hdays1 : ms / 86400000 ≤ 100000000 := by omega
  have hy0 : 0 ≤ (civilFromDays (ms / 86400000)).1 := by
    show 0 ≤ (ms / 86400000 + 719468) / 146097 * 400 +
      (yoeOfDoe ((ms / 86400000 + 719468) % 146097).toNat : Int) +
      (if monthOfDoe ((ms / 86400000 + 719468) % 146097).toNat ≤ 2 then 1 else 0)
    split <;> omega
  have hy6 : (civilFromDays (ms / 86400000)).1 ≤ 999999 := by
    show (ms / 86400000 + 719468) / 146097 * 400 +
      (yoeOfDoe ((ms / 86400000 + 719468) % 146097).toNat : Int) +
      (if monthOfDoe ((ms / 86400000 + 719468) % 146097).toNat ≤ 2 then 1 else 0) ≤ 999999
    split <;> omega
  have ht : timeOfDayMs ms < 86400000 := by
    have h2 := Int.emod_lt_of_pos ms (show (0:Int) < 86400000 by norm_num)
    have h3 := Int.emod_nonneg ms (show (86400000:Int) ≠ 0 by norm_num)
    simp only [timeOfDayMs]
    omega
  rw [isoChars, dateChars]
  simp only [pad2, List.append_assoc, List.cons_append]
  rw [parseIsoChars,
    parseIsoDatePart_format _ hy0 hy6 _ _ (by omega) (by omega), Option.some_bind]
  dsimp only
  rw [expectChar_cons, Option.some_bind,
    parseIsoTimePart_format _ _ _ _ (by omega) (by omega) (by omega) (by omega),
    Option.some_bind]
  dsimp only
  rw [expectChar_cons, Option.some_bind,
    if_pos ⟨rfl, hm1, hm12, hd1, hd31, by omega, by omega, by omega⟩, hback]
  congr 1
  have htod : (timeOfDayMs ms : Int) = ms % 86400000 := by
    simp only [timeOfDayMs]
    omega
  omega

/-! ## JavaScript string primitives (models of `String.prototype` methods) -/

def jsWs (c : Char) : Bool :=
  c == ' ' || c == '\t' || c == '\n' || c == '\r' || c == '\x0b' || c == '\x0c'

def jsTrimList (l : List Char) : List Char :=
  ((l.dropWhile jsWs).reverse.dropWhile jsWs).reverse

/-- `String.prototype.trim`. -/
def jsTrim (s : String) : String := ⟨jsTrimList s.data⟩

def startsWithL : List Char → List Char → Bool
  | [], _ => true
  | _ :: _, [] => false
  | p :: ps, c :: cs => p == c && startsWithL ps cs

/-- `String.prototype.startsWith`. -/
def jsStartsWith (s pat : String) : Bool := startsWithL pat.data s.data

def hasSubstrL (pat : List Char) : List Char → Bool
  | [] => startsWithL pat []
  | c :: t => startsWithL pat (c :: t) || hasSubstrL pat t

/-- Substring containment, as tested by an unanchored literal regex. -/
def containsSub (s pat : String) : Bool := hasSubstrL pat.data s.data

def lowerChar (c : Char) : Char :=
  if 'A' ≤ c ∧ c ≤ 'Z' then Char.ofNat (c.toNat + 32) else c

/-- ASCII lowercasing, for case-insensitive (`/i`) pattern matching. -/
def lowerStr (s : String) : String := ⟨s.data.map lowerChar⟩

/-! ## JavaScript values

JSON-parsed data and the dynamically typed values flowing through the
userscript are modelled by `JVal`; field access, optional chaining, the `||`
operator and truthiness follow the ECMAScript semantics. -/

inductive JVal where
  | jnull
  | jundefined
  | jbool (b : Bool)
  | jnum (n : Int)
  | jstr (s : String)
  | jobj (fields : List (String × JVal))

def truthy : JVal → Bool
  | .jnull => false
  | .jundefined => false
  | .jbool b => b
  | .jnum n => n != 0
  | .jstr s => s != ""
  | .jobj _ => true

/-- Property access `v.k`: `undefined` on primitives and missing keys. -/
def getField : JVal → String → JVal
  | .jobj fs, k =>
    match fs.find? (fun p => p.1 == k) with
    | some p => p.2
    | none => .jundefined
  | _, _ => .jundefined

/-- Optional chaining `v?.k`. -/
def optChain (v : JVal) (k : String) : JVal :=
  match v with
  | .jnull => .jundefined
  | .jundefined => .jundefined
  | _ => getField v k

/-- The `||` operator. -/
def jsOr (a b : JVal) : JVal := if truthy a then a else b

/-- `Object.keys`. -/
def jsKeys : JVal → List String
  | .jobj fs => fs.map (fun p => p.1)
  | _ => []

/-- `Object.values`. -/
def objValues : JVal → List JVal
  | .jobj fs => fs.map (fun p => p.2)
  | _ => []

/-- `typeof v === 'object'` (true for objects and for `null`). -/
def isObjectType : JVal → Bool
  | .jobj _ => true
  | .jnull => true
  | _ => false

def strVal : JVal → String
  | .jstr s => s
  | _ => ""

def intToDecimalString (n : Int) : String :=
  if n < 0 then ⟨'-' :: natDigits (-n).toNat⟩
  else if n = 0 then "0"
  else ⟨natDigits n.toNat⟩

/-- Template-literal interpolation of a value. -/
def jsTemplate : JVal → String
  | .jstr s => s
  | .jnum n => intToDecimalString n
  | .jbool b => if b then "true" else "false"
  | .jnull => "null"
  | .jundefined => "undefined"
  | .jobj _ => "[object Object]"

/-! ## `parseIsoDate` (source lines 206-228) -/

/-- `new Date(ms).toISOString().split('T')[0]`, including the `isNaN` guard:
time values beyond ±8.64e15 ms are invalid dates and give `''`. -/
def dateFromMs (ms : Int) : String :=
  if ms.natAbs > 8640000000000000 then "" else msToDateString ms

/-- The numeric branch of `parseIsoDate`: values below 1e12 are unix seconds
and are scaled to milliseconds. -/
def parseIsoDateNum (n : Int) : String :=
  dateFromMs (if n < 1000000000000 then n * 1000 else n)

/-- `parseIsoDate(value)`.  A boolean input is coerced by `new Date(value)` to
0/1 ms; an object input yields an invalid date. -/
def parseIsoDate : JVal → String
  | .jnull => ""
  | .jundefined => ""
  | .jnum n => parseIsoDateNum n
  | .jbool b => dateFromMs (if b then 1 else 0)
  | .jobj _ => ""
  | .jstr s =>
    if s = "" then ""
    else
      let numeric := jsTrim s
      if (!numeric.isEmpty) && numeric.data.all Char.isDigit then
        parseIsoDateNum ((digitsVal numeric.data : Nat) : Int)
      else
        match jsDateParse s with
        | none => ""
        | some ms => dateFromMs ms

/-! ## Document model

A fetched or live document is modelled by the results of the fixed
`querySelector` probes the script performs; an element carries exactly the
observations the script makes of it. -/

structure Elem where
  textContent : String
  hasMoreButton : Bool
deriving DecidableEq

/-- A content fragment: either an element found in a document or a container
built from an HTML string by `buildContentElementFromHtml`. -/
inductive ContentEl where
  | domElem (e : Elem)
  | fromHtml (html : String)
deriving DecidableEq

structure Doc where
  h1PostTitle : Option String
  h1QuestionTitle : Option String
  titleTag : Option String
  postRichTextContainer : Option Elem
  richContentInner : Option Elem
  authorMetaName : Option String
  authorInfoName : Option String
  authorMetaItemprop : Option String
  datePublishedMeta : Option String
  dateModifiedMeta : Option String
  contentItemTime : Option String
  metaUrl : Option String
  initialDataScript : Option String

structure ImgResponse where
  contentType : String
  base64Data : String

/-- Ambient browser state and network/JSON oracles: `window.location`,
`new URL(raw, base).href` (`none` = parse failure), `JSON.parse`
(`none` = syntax error), and the three request kinds the script issues
(`none` = rejected promise). -/
structure JsEnv where
  protocol : String
  locationHref : String
  resolveUrl : String → String → Option String
  parseJson : String → Option JVal
  fetchDoc : String → Option Doc
  fetchJson : String → Option JVal
  imageNet : String → Option ImgResponse

/-! ## `normalizeUrl` (source lines 186-204) -/

def normalizeUrl (env : JsEnv) (rawUrl : String)
    (base : String := env.locationHref) : String :=
  if rawUrl = "" then ""
  else if jsStartsWith rawUrl "data:" then rawUrl
  else if jsStartsWith rawUrl "//" then env.protocol ++ rawUrl
  else if jsStartsWith rawUrl "http://" || jsStartsWith rawUrl "https://" then rawUrl
  else
    match env.resolveUrl rawUrl base with
    | some href => href
    | none => rawUrl

/-! ## `getValidFilename`, `getArticleDate` (source lines 96-108) -/

def getValidFilename (s : String) : String :=
  ⟨jsTrimList (s.data.map (fun c =>
    if c == '\\' || c == '/' || c == ':' || c == '*' || c == '?' ||
        c == '"' || c == '<' || c == '>' || c == '|' then '_' else c))⟩

def dateDigitsAt : List Char → Option (List Char)
  | a :: b :: c :: d :: '-' :: e :: f :: '-' :: g :: h :: _ =>
    if a.isDigit && b.isDigit && c.isDigit && d.isDigit &&
        e.isDigit && f.isDigit && g.isDigit && h.isDigit then
      some [a, b, c, d, '-', e, f, '-', g, h]
    else none
  | _ => none

/-- Leftmost match of `/(\d{4}-\d{2}-\d{2})/`. -/
def findDatePat : List Char → Option (List Char)
  | [] => none
  | c :: rest =>
    match dateDigitsAt (c :: rest) with
    | some m => some m
    | none => findDatePat rest

/-- `getArticleDate(selector, root)`; the argument is the matched element's
text content (`none` when the selector matches nothing). -/
def getArticleDate (timeText : Option String) : String :=
  match timeText with
  | none => ""
  | some t =>
    match findDatePat (jsTrim t).data with
    | some m => ⟨m⟩
    | none => ""

/-! ## `detectZhihuBlockPage` (source lines 240-245) -/

def secPatterns (s : String) : Bool :=
  let ls := lowerStr s
  containsSub ls "安全验证" || containsSub ls "captcha" || containsSub ls "验证码" ||
    containsSub ls "verify" || containsSub ls "risk"

def loginPatterns (s : String) : Bool :=
  let ls := lowerStr s
  containsSub ls "signflow" || containsSub ls "请登录" || containsSub ls "登录知乎" ||
    containsSub ls "登录后查看"

def detectZhihuBlockPage : JVal → String
  | .jstr s =>
    if s = "" then ""
    else if secPatterns s then "SECURITY_CHECK"
    else if loginPatterns s then "LOGIN_REQUIRED"
    else ""
  | _ => ""

/-! ## Turndown table rule (source lines 146-178)

A table is modelled as its `tr` rows in document order, each row as its
`th`/`td` cells in document order. -/

structure Cell where
  isTh : Bool
  text : String
deriving DecidableEq

/-- One cell's Markdown text: trim, collapse embedded newlines to spaces, and
substitute a single space for an empty result. -/
def cellMdText (c : Cell) : String :=
  let t : String := ⟨(jsTrim c.text).data.map (fun ch => if ch = '\n' then ' ' else ch)⟩
  if t = "" then " " else t

def mdRow (r : List Cell) : String :=
  "| " ++ String.intercalate " | " (r.map cellMdText) ++ " |"

/-- The separator row inserted after the first table row: one `---` per header
cell when the first row has any, else one per data cell of the first row. -/
def sepRowFor (r : List Cell) : String :=
  if r.any (fun c => c.isTh) then
    "| " ++ String.intercalate " | " ((r.filter (fun c => c.isTh)).map (fun _ => "---")) ++ " |"
  else
    "| " ++ String.intercalate " | "
      (List.replicate (r.filter (fun c => !c.isTh)).length "---") ++ " |"

/-- `Array.prototype.splice(1, 0, x)`. -/
def spliceAt1 (x : String) : List String → List String
  | [] => [x]
  | a :: t => a :: x :: t

/-- The `tables` rule replacement: `content` is the engine-processed child
content returned unchanged for a table without rows. -/
def tablesRule (rows : List (List Cell)) (content : String) : String :=
  match rows with
  | [] => content
  | r0 :: rest =>
    let mdRows := (r0 :: rest).map mdRow
    let withSep := spliceAt1 (sepRowFor r0) mdRows
    "\n\n" ++ String.intercalate "\n" withSep ++ "\n\n"

/-! ## Embedded-state extraction (source lines 247-316) -/

/-- `buildContentElementFromHtml(html)`: a non-empty string yields a container
element (never null for such input). -/
def buildContentElementFromHtml (html : JVal) : Option ContentEl :=
  match html with
  | .jstr s => if s = "" then none else some (.fromHtml s)
  | _ => none

/-- The predicate of `findEntityWithContent`'s `find`: a content-bearing
entity has a string `content` field that is non-empty after trimming. -/
def itemHasContent (item : JVal) : Bool :=
  truthy item &&
    (match getField item "content" with
     | .jstr s => jsTrim s != ""
     | _ => false)

def tryBuckets (entities : JVal) (key : String) : Option (String × JVal) :=
  let bucket := getField entities key
  if truthy bucket && isObjectType bucket then
    ((objValues bucket).find? itemHasContent).map (fun e => (key, e))
  else none

def findEntityWithContent (entities : JVal) (preferred : List String) :
    Option (String × JVal) :=
  if truthy entities && isObjectType entities then
    match preferred.findSome? (tryBuckets entities) with
    | some found => some found
    | none =>
      ((jsKeys entities).filter (fun k => !(preferred.contains k))).findSome?
        (tryBuckets entities)
  else none

def preferredKeys : List String := ["articles", "answers", "posts", "zvideos"]

/-- The record assembled by `extractFromInitialData`; `title`/`author` keep
whatever JSON value the `||` chains produced, `date`/`url` are strings by
construction, and `content` is the non-null built container. -/
structure FallbackRecord where
  title : JVal
  author : JVal
  date : String
  url : String
  content : ContentEl

/-- `extractFromInitialData(doc, fallbackUrl)`.  A non-string truthy
`entity.url` is modelled by its string value (the script would throw inside
`normalizeUrl` on such data and be caught one level further up). -/
def extractFromInitialData (env : JsEnv) (doc : Doc) (fallbackUrl : String) :
    Option FallbackRecord :=
  match doc.initialDataScript with
  | none => none
  | some scriptText =>
    if scriptText = "" then none
    else
      match env.parseJson (jsTrim scriptText) with
      | none => none
      | some parsed =>
        let state := jsOr (getField parsed "initialState")
          (jsOr (getField parsed "data") parsed)
        let entities := optChain state "entities"
        if !truthy entities then none
        else
          match findEntityWithContent entities preferredKeys with
          | none => none
          | some (key, entity) =>
            match buildContentElementFromHtml (getField entity "content") with
            | none => none
            | some content =>
              let title := jsOr (getField entity "title")
                (jsOr (optChain (getField entity "question") "title")
                  (jsOr (optChain state "title") (.jstr "")))
              let author := jsOr (optChain (getField entity "author") "name")
                (jsOr (optChain (getField entity "author") "urlToken")
                  (jsOr (optChain (getField entity "user") "name") (.jstr "")))
              let date := parseIsoDate (jsOr (getField entity "updated")
                (jsOr (getField entity "updatedTime")
                  (jsOr (getField entity "publish_time")
                    (jsOr (getField entity "publishTime")
                      (jsOr (getField entity "created") (getField entity "createdTime"))))))
              let url0 := if truthy (getField entity "url")
                then normalizeUrl env (strVal (getField entity "url"))
                else normalizeUrl env fallbackUrl
              let url := if !(truthy (getField entity "url")) &&
                  truthy (getField entity "id") then
                if key = "articles" then
                  normalizeUrl env
                    ("https://zhuanlan.zhihu.com/p/" ++ jsTemplate (getField entity "id"))
                else if key = "answers" &&
                    truthy (optChain (getField entity "question") "id") then
                  normalizeUrl env
                    ("https://www.zhihu.com/question/" ++
                      jsTemplate (optChain (getField entity "question") "id") ++
                      "/answer/" ++ jsTemplate (getField entity "id"))
                else url0
              else url0
              some { title := title, author := author, date := date,
                     url := url, content := content }

/-! ## DOM extraction and the resolution pipeline (source lines 426-542) -/

def orElseStr (a b : String) : String := if a = "" then b else a

/-- `elem?.textContent.trim()` in a `||` chain: absent element and empty text
both read as `""`. -/
def optTrim (o : Option String) : String := (o.map jsTrim).getD ""

/-- `elem?.getAttribute(name)` in a `||` chain. -/
def optAttr (o : Option String) : String := o.getD ""

def domTitle (d : Doc) : String :=
  orElseStr (optTrim d.h1PostTitle)
    (orElseStr (optTrim d.h1QuestionTitle)
      (orElseStr (optTrim d.titleTag) "Untitled"))

def domContent (d : Doc) : Option Elem :=
  match d.postRichTextContainer with
  | some e => some e
  | none => d.richContentInner

def domAuthor (d : Doc) : String :=
  orElseStr (optAttr d.authorMetaName)
    (orElseStr (optTrim d.authorInfoName)
      (orElseStr (optAttr d.authorMetaItemprop) "Unknown"))

def domDate (d : Doc) : String :=
  let d1 := match d.datePublishedMeta with
    | some m => if m ≠ "" then parseIsoDate (.jstr m) else ""
    | none => ""
  let d2 := if d1 ≠ "" then d1 else
    match d.dateModifiedMeta with
    | some m => if m ≠ "" then parseIsoDate (.jstr m) else ""
    | none => ""
  if d2 ≠ "" then d2 else getArticleDate d.contentItemTime

def domCanonicalUrl (d : Doc) (url : String) : String :=
  orElseStr (optAttr d.metaUrl) url

/-- The truncation heuristic `shouldUseFallback` over the DOM content
element. -/
def shouldUseFallback (content : Option Elem) : Bool :=
  match content with
  | none => true
  | some el =>
    let text := jsTrim el.textContent
    if text.length < 200 then true
    else el.hasMoreButton || containsSub text "阅读全文"

structure ContentRecord where
  title : JVal
  author : JVal
  date : String
  url : String
  content : ContentEl

/-- `extractContentFromDocument(doc, url)`.  The fallback record's `content`
is always a non-null container, so the source's `if (fallback.content)` guard
always fires; it is modelled as an unconditional overwrite. -/
def extractContentFromDocument (env : JsEnv) (doc : Option Doc) (url : String) :
    Option ContentRecord :=
  match doc with
  | none => none
  | some d =>
    let title0 : JVal := .jstr (domTitle d)
    let author0 : JVal := .jstr (domAuthor d)
    let date0 := domDate d
    let canonical0 := domCanonicalUrl d url
    let content0 : Option ContentEl := (domContent d).map ContentEl.domElem
    let overlaid :=
      if shouldUseFallback (domContent d) then
        match extractFromInitialData env d (orElseStr canonical0 url) with
        | some fb =>
          (jsOr fb.title title0, jsOr fb.author author0,
            orElseStr fb.date date0, orElseStr fb.url canonical0,
            some fb.content)
        | none => (title0, author0, date0, canonical0, content0)
      else (title0, author0, date0, canonical0, content0)
    match overlaid with
    | (t, a, dt, cu, c) =>
      match c with
      | none => none
      | some ce =>
        some { title := t, author := a, date := dt,
               url := normalizeUrl env (orElseStr cu url), content := ce }

/-! ## API fallback client (source lines 426-457) -/

def findPDigits : List Char → Option (List Char)
  | [] => none
  | c :: rest =>
    match c, rest with
    | '/', 'p' :: '/' :: r =>
      let ds := r.takeWhile Char.isDigit
      if ds.isEmpty then findPDigits rest else some ds
    | _, _ => findPDigits rest

/-- `extractZhihuArticleId(url)`: first match of `/\/p\/(\d+)/` against the
normalized URL. -/
def extractZhihuArticleId (env : JsEnv) (url : String) : String :=
  if url = "" then ""
  else
    match findPDigits (normalizeUrl env url).data with
    | some ds => ⟨ds⟩
    | none => ""

def articleApiUrl (articleId : String) : String :=
  "https://www.zhihu.com/api/v4/articles/" ++ articleId ++
    "?include=content,created,updated,title,url,author.name"

/-- `fetchZhihuArticleDetailsByApi(url)`.  `env.fetchJson ... = none` covers
every rejection of `fetchJson`: transport error, HTTP error status, and a
body that fails JSON parsing.  A non-string truthy `url` field would make the
script throw inside `normalizeUrl` and be caught by its own `try`, yielding
null; that path is the final `none`. -/
def fetchZhihuArticleDetailsByApi (env : JsEnv) (url : String) : Option ContentRecord :=
  let articleId := extractZhihuArticleId env url
  if articleId = "" then none
  else
    match env.fetchJson (articleApiUrl articleId) with
    | none => none
    | some data =>
      if !truthy data then none
      else
        match getField data "content" with
        | .jstr s =>
          if jsTrim s = "" then none
          else
            match buildContentElementFromHtml (.jstr s) with
            | none => none
            | some content =>
              match jsOr (getField data "url")
                  (.jstr ("https://zhuanlan.zhihu.com/p/" ++ articleId)) with
              | .jstr u =>
                some { title := jsOr (getField data "title") (.jstr ""),
                       author := jsOr (optChain (getField data "author") "name") (.jstr ""),
                       date := parseIsoDate
                         (jsOr (getField data "updated") (getField data "created")),
                       url := normalizeUrl env u,
                       content := content }
              | _ => none
        | _ => none

/-- `fetchZhihuArticleDetails(url)` (source lines 525-542).  A returned
record always carries a content element, so `extracted?.content` is truthy
exactly when `extracted` is non-null. -/
def fetchZhihuArticleDetails (env : JsEnv) (url : String) : Option ContentRecord :=
  match env.fetchDoc url with
  | some doc =>
    match extractContentFromDocument env (some doc) url with
    | some extracted => some extracted
    | none => fetchZhihuArticleDetailsByApi env url
  | none =>
    match fetchZhihuArticleDetailsByApi env url with
    | some r => some r
    | none => none

/-! ## Image inlining (source lines 565-622)

State threads the session image cache and the log of outbound requests;
byte-level base64 encoding is folded into the network oracle's response. -/

structure Img where
  src : Option String
  dataOriginal : Option String
  dataSrc : Option String
  dataActualsrc : Option String
  srcset : Option String
deriving DecidableEq

structure ImgState where
  cache : List (String × String)
  requests : List String
deriving DecidableEq

def attrOr (a : Option String) (b : Option String) : Option String :=
  match a with
  | some s => if s = "" then b else some s
  | none => b

/-- `img.getAttribute('src') || ... || img.getAttribute('data-actualsrc')`,
with the final `if (!src) return` folded in: `none` means the image is
skipped. -/
def imgEffectiveSrc (img : Img) : Option String :=
  match attrOr img.src (attrOr img.dataOriginal (attrOr img.dataSrc img.dataActualsrc)) with
  | some s => if s = "" then none else some s
  | none => none

def fetchImageAsDataUrl (env : JsEnv) (st : ImgState) (src : String) (base : String) :
    Option String × ImgState :=
  let normalized := normalizeUrl env src base
  if normalized = "" then (some "", st)
  else if jsStartsWith normalized "data:" then (some normalized, st)
  else
    match st.cache.find? (fun p => p.1 == normalized) with
    | some p => (some p.2, st)
    | none =>
      let st2 : ImgState := { st with requests := st.requests ++ [normalized] }
      match env.imageNet normalized with
      | some resp =>
        let dataUrl := "data:" ++ orElseStr resp.contentType "application/octet-stream" ++
          ";base64," ++ resp.base64Data
        (some dataUrl, { st2 with cache := st2.cache ++ [(normalized, dataUrl)] })
      | none => (none, st2)

def processImage (env : JsEnv) (base : String) (st : ImgState) (img : Img) :
    Img × ImgState :=
  match imgEffectiveSrc img with
  | none => (img, st)
  | some s =>
    match fetchImageAsDataUrl env st s base with
    | (some dataUrl, st2) =>
      if dataUrl ≠ "" then ({ img with src := some dataUrl, srcset := none }, st2)
      else (img, st2)
    | (none, st2) => (img, st2)

/-- `convertImagesToDataUrls(root, baseUrl)`: per-image failures leave that
image unmodified and never abort the batch. -/
def convertImagesToDataUrls (env : JsEnv) (st : ImgState) (imgs : List Img)
    (base : String) : List Img × ImgState :=
  match imgs with
  | [] => ([], st)
  | img :: rest =>
    let p := processImage env base st img
    let q := convertImagesToDataUrls env p.2 rest base
    (p.1 :: q.1, q.2)
/-! ## Shared sample environment for concrete evaluations -/

def sampleEnv : JsEnv :=
  { protocol := "https:", locationHref := "https://www.zhihu.com/",
    resolveUrl := fun _ _ => none, parseJson := fun _ => none,
    fetchDoc := fun _ => none, fetchJson := fun _ => none,
    imageNet := fun _ => none }

/-! ## Branch lemmas for `normalizeUrl` -/

theorem normalizeUrl_eq_empty (env : JsEnv) (b : String) :
    normalizeUrl env "" b = "" := by
  simp [normalizeUrl]

theorem normalizeUrl_eq_data (env : JsEnv) (u b : String) (h1 : u ≠ "")
    (h2 : jsStartsWith u "data:" = true) : normalizeUrl env u b = u := by
  simp [normalizeUrl, h1, h2]

theorem normalizeUrl_eq_proto (env : JsEnv) (u b : String) (h1 : u ≠ "")
    (h2 : jsStartsWith u "data:" = false) (h3 : jsStartsWith u "//" = true) :
    normalizeUrl env u b = env.protocol ++ u := by
  simp [normalizeUrl, h1, h2, h3]

theorem normalizeUrl_eq_abs (env : JsEnv) (u b : String) (h1 : u ≠ "")
    (h2 : jsStartsWith u "data:" = false) (h3 : jsStartsWith u "//" = false)
    (h4 : (jsStartsWith u "http://" || jsStartsWith u "https://") = true) :
    normalizeUrl env u b = u := by
  simp [normalizeUrl, h1, h2, h3, h4]

theorem normalizeUrl_eq_resolve (env : JsEnv) (u b : String) (h1 : u ≠ "")
    (h2 : jsStartsWith u "data:" = false) (h3 : jsStartsWith u "//" = false)
    (h4 : jsStartsWith u "http://" = false) (h5 : jsStartsWith u "https://" = false) :
    normalizeUrl env u b = (env.resolveUrl u b).getD u := by
  simp only [normalizeUrl, if_neg h1, h2, h3, h4, h5, Bool.or_self, if_neg, Bool.false_eq_true,
    not_false_eq_true]
  cases env.resolveUrl u b <;> rfl

/-- C6: `normalizeUrl` applies its rules in order: empty input, `data:` URLs,
protocol-relative URLs, absolute `http(s)` URLs, and base-relative
resolution whose failure returns the raw input; the function is total. -/
theorem zhihu_C6 (env : JsEnv) (u b : String) :
    (u = "" → normalizeUrl env u b = "") ∧
    (u ≠ "" → jsStartsWith u "data:" = true → normalizeUrl env u b = u) ∧
    (u ≠ "" → jsStartsWith u "data:" = false → jsStartsWith u "//" = true →
      normalizeUrl env u b = env.protocol ++ u) ∧
    (u ≠ "" → jsStartsWith u "data:" = false → jsStartsWith u "//" = false →
      (jsStartsWith u "http://" || jsStartsWith u "https://") = true →
      normalizeUrl env u b = u) ∧
    (u ≠ "" → jsStartsWith u "data:" = false → jsStartsWith u "//" = false →
      jsStartsWith u "http://" = false → jsStartsWith u "https://" = false →
      normalizeUrl env u b = (env.resolveUrl u b).getD u) :=
  ⟨fun h1 => by rw [h1]; exact normalizeUrl_eq_empty env b,
   normalizeUrl_eq_data env u b,
   normalizeUrl_eq_proto env u b,
   normalizeUrl_eq_abs env u b,
   normalizeUrl_eq_resolve env u b⟩

/-- Witness for C6 at concrete inputs: a `data:` URL second rule, and a
relative URL falling through to the (failing) resolver. -/
theorem zhihu_C6_witness :
    normalizeUrl sampleEnv "data:image/png;base64,AA" "https://www.zhihu.com/" =
      "data:image/png;base64,AA" ∧
    normalizeUrl sampleEnv "a/b" "https://www.zhihu.com/" = "a/b" :=
  ⟨(zhihu_C6 sampleEnv "data:image/png;base64,AA" "https://www.zhihu.com/").2.1
      (by decide) (by decide),
   (zhihu_C6 sampleEnv "a/b" "https://www.zhihu.com/").2.2.2.2
      (by decide) (by decide) (by decide) (by decide) (by decide)⟩

/-! ## C10: block-page detector -/

/-- C10: the detector is total with exactly the three classifications, the
security check takes precedence over the login check, and any non-string or
empty payload is classified clean (`''`). -/
theorem zhihu_C10 (v : JVal) :
    (detectZhihuBlockPage v = "SECURITY_CHECK" ∨
      detectZhihuBlockPage v = "LOGIN_REQUIRED" ∨ detectZhihuBlockPage v = "") ∧
    (∀ s, v = .jstr s → secPatterns s = true → loginPatterns s = true →
      detectZhihuBlockPage v = "SECURITY_CHECK") ∧
    ((match v with | .jstr s => s = "" | _ => True) → detectZhihuBlockPage v = "") := by
  refine ⟨?_, ?_, ?_⟩
  · cases v with
    | jstr s =>
      simp only [detectZhihuBlockPage]
      split_ifs <;> simp
    | jnull => simp [detectZhihuBlockPage]
    | jundefined => simp [detectZhihuBlockPage]
    | jbool b => simp [detectZhihuBlockPage]
    | jnum n => simp [detectZhihuBlockPage]
    | jobj fs => simp [detectZhihuBlockPage]
  · intro s hv hsec _
    subst hv
    have hs : ¬ s = "" := by
      intro he
      subst he
      exact absurd hsec (by decide)
    show (if s = "" then "" else if secPatterns s then "SECURITY_CHECK"
      else if loginPatterns s then "LOGIN_REQUIRED" else "") = "SECURITY_CHECK"
    rw [if_neg hs, if_pos hsec]
  · intro h
    cases v with
    | jstr s =>
      have hs : s = "" := h
      subst hs
      rfl
    | jnull => rfl
    | jundefined => rfl
    | jbool b => rfl
    | jnum n => rfl
    | jobj fs => rfl

/-- Witness for C10: a payload matching both pattern families is classified
SECURITY_CHECK. -/
theorem zhihu_C10_witness :
    detectZhihuBlockPage (.jstr "captcha 请登录") = "SECURITY_CHECK" :=
  (zhihu_C10 (.jstr "captcha 请登录")).2.1 "captcha 请登录" rfl (by decide) (by decide)

/-! ## C3: table conversion rule -/

/-- C3: for a non-empty table the rule emits one Markdown row per table row
with exactly one separator row inserted after the first row, the separator
column count is the first row's `th` count when it has header cells and its
`td` count otherwise, and the two-row example table produces exactly the
three expected lines in order. -/
theorem zhihu_C3 (r0 : List Cell) (rest : List (List Cell)) (content : String) :
    tablesRule (r0 :: rest) content =
      "\n\n" ++ String.intercalate "\n"
        (mdRow r0 :: sepRowFor r0 :: rest.map mdRow) ++ "\n\n" ∧
    sepRowFor r0 = "| " ++ String.intercalate " | "
      (List.replicate
        (if r0.any (fun c => c.isTh) then (r0.filter (fun c => c.isTh)).length
         else (r0.filter (fun c => !c.isTh)).length) "---") ++ " |" ∧
    tablesRule [[⟨true, "A"⟩, ⟨true, "B"⟩], [⟨false, "1"⟩, ⟨false, "2"⟩]] "" =
      "\n\n| A | B |\n| --- | --- |\n| 1 | 2 |\n\n" := by
  refine ⟨rfl, ?_, by decide⟩
  unfold sepRowFor
  split_ifs with h
  · have hmap : ∀ l : List Cell, l.map (fun _ => "---") = List.replicate l.length "---" := by
      intro l
      induction l with
      | nil => rfl
      | cons a t ih => simp [List.replicate_succ, ih]
    rw [hmap]
  · rfl

/-! ## C5: idempotence of `normalizeUrl` -/

theorem startsWithL_true_cons {p : Char} {ps l : List Char}
    (h : startsWithL (p :: ps) l = true) : ∃ t, l = p :: t ∧ startsWithL ps t = true := by
  cases l with
  | nil => exact absurd h (by simp [startsWithL])
  | cons c t =>
    have h2 : (p == c && startsWithL ps t) = true := h
    have h3 := Bool.and_elim_left h2
    have h4 := Bool.and_elim_right h2
    have hpc : p = c := eq_of_beq h3
    exact ⟨t, by rw [hpc], h4⟩

theorem jsStartsWith_ne_empty {s pat : String} (hp : pat.data ≠ [])
    (h : jsStartsWith s pat = true) : s ≠ "" := by
  intro he
  subst he
  unfold jsStartsWith at h
  cases hd : pat.data with
  | nil => exact hp hd
  | cons c t =>
    rw [hd] at h
    exact absurd h (by simp [startsWithL])

theorem protoAppend_http (u : String) :
    ("http:" ++ u) ≠ "" ∧
    jsStartsWith ("http:" ++ u) "data:" = false ∧
    jsStartsWith ("http:" ++ u) "//" = false ∧
    jsStartsWith ("http:" ++ u) "http://" = jsStartsWith u "//" := by
  refine ⟨?_, rfl, rfl, rfl⟩
  intro h
  have h2 : ("http:" ++ u).data = ([] : List Char) := congrArg String.data h
  have h3 : ("http:" ++ u).data = 'h' :: ('t' :: ('t' :: ('p' :: (':' :: u.data)))) := rfl
  rw [h3] at h2
  simp at h2

theorem protoAppend_https (u : String) :
    ("https:" ++ u) ≠ "" ∧
    jsStartsWith ("https:" ++ u) "data:" = false ∧
    jsStartsWith ("https:" ++ u) "//" = false ∧
    jsStartsWith ("https:" ++ u) "https://" = jsStartsWith u "//" := by
  refine ⟨?_, rfl, rfl, rfl⟩
  intro h
  have h2 : ("https:" ++ u).data = ([] : List Char) := congrArg String.data h
  have h3 : ("https:" ++ u).data = 'h' :: ('t' :: ('t' :: ('p' :: ('s' :: (':' :: u.data))))) := rfl
  rw [h3] at h2
  simp at h2

/-- C5: normalization is idempotent.  The two hypotheses state the relevant
WHATWG guarantees about the ambient browser: the page protocol is `http:` or
`https:` (the script only runs on such pages), and a serialized `href`
re-parses to itself and never starts with `//`. -/
theorem zhihu_C5 (env : JsEnv) (u b : String)
    (hp : env.protocol = "http:" ∨ env.protocol = "https:")
    (hres : ∀ x y r, env.resolveUrl x y = some r →
      jsStartsWith r "//" = false ∧ env.resolveUrl r y = some r) :
    normalizeUrl env (normalizeUrl env u b) b = normalizeUrl env u b := by
  by_cases h1 : u = ""
  · rw [h1, normalizeUrl_eq_empty, normalizeUrl_eq_empty]
  by_cases h2 : jsStartsWith u "data:" = true
  · rw [normalizeUrl_eq_data env u b h1 h2]
    exact normalizeUrl_eq_data env u b h1 h2
  have h2f : jsStartsWith u "data:" = false := by simpa using h2
  by_cases h3 : jsStartsWith u "//" = true
  · rw [normalizeUrl_eq_proto env u b h1 h2f h3]
    rcases hp with hq | hq <;> rw [hq]
    · obtain ⟨hne, hd, hs2, hh⟩ := protoAppend_http u
      exact normalizeUrl_eq_abs env _ b hne hd hs2 (by rw [hh, h3]; rfl)
    · obtain ⟨hne, hd, hs2, hh⟩ := protoAppend_https u
      exact normalizeUrl_eq_abs env _ b hne hd hs2 (by rw [hh, h3]; simp)
  have h3f : jsStartsWith u "//" = false := by simpa using h3
  by_cases h4 : (jsStartsWith u "http://" || jsStartsWith u "https://") = true
  · rw [normalizeUrl_eq_abs env u b h1 h2f h3f h4]
    exact normalizeUrl_eq_abs env u b h1 h2f h3f h4
  have h4a : jsStartsWith u "http://" = false := by
    rcases Bool.or_eq_false_iff.mp (by simpa using h4) with ⟨ha, _⟩
    exact ha
  have h4b : jsStartsWith u "https://" = false := by
    rcases Bool.or_eq_false_iff.mp (by simpa using h4) with ⟨_, hb⟩
    exact hb
  rw [normalizeUrl_eq_resolve env u b h1 h2f h3f h4a h4b]
  cases hr : env.resolveUrl u b with
  | none =>
    show normalizeUrl env u b = u
    rw [normalizeUrl_eq_resolve env u b h1 h2f h3f h4a h4b, hr]
    rfl
  | some r =>
    show normalizeUrl env r b = r
    obtain ⟨hr2, hr3⟩ := hres u b r hr
    by_cases hre : r = ""
    · rw [hre]
      exact normalizeUrl_eq_empty env b
    by_cases hrd : jsStartsWith r "data:" = true
    · exact normalizeUrl_eq_data env r b hre hrd
    have hrdf : jsStartsWith r "data:" = false := by simpa using hrd
    by_cases hrh : (jsStartsWith r "http://" || jsStartsWith r "https://") = true
    · exact normalizeUrl_eq_abs env r b hre hrdf hr2 hrh
    have hrha : jsStartsWith r "http://" = false := by
      rcases Bool.or_eq_false_iff.mp (by simpa using hrh) with ⟨ha, _⟩
      exact ha
    have hrhb : jsStartsWith r "https://" = false := by
      rcases Bool.or_eq_false_iff.mp (by simpa using hrh) with ⟨_, hb⟩
      exact hb
    rw [normalizeUrl_eq_resolve env r b hre hrdf hr2 hrha hrhb, hr3]
    rfl

/-- A resolver satisfying the WHATWG serialization-roundtrip property, for
the C5 witness. -/
def idemResolver : String → String → Option String :=
  fun x _ => some (if jsStartsWith x "https://" then x else "https://h/" ++ x)

def resolverEnv : JsEnv := { sampleEnv with resolveUrl := idemResolver }

theorem startsWith_https_not_slashes {x : String}
    (h : jsStartsWith x "https://" = true) : jsStartsWith x "//" = false := by
  obtain ⟨t, ht, _⟩ := startsWithL_true_cons (h : startsWithL ('h' :: _) x.data = true)
  unfold jsStartsWith
  rw [show ("//" : String).data = ['/', '/'] from rfl, ht]
  rfl

theorem idemResolver_ok : ∀ x y r, idemResolver x y = some r →
    jsStartsWith r "//" = false ∧ idemResolver r y = some r := by
  intro x y r h
  unfold idemResolver at h ⊢
  by_cases hx : jsStartsWith x "https://" = true
  · rw [if_pos hx] at h
    have hr : r = x := by injection h with h2; exact h2.symm
    subst hr
    exact ⟨startsWith_https_not_slashes hx, by rw [if_pos hx]⟩
  · rw [if_neg hx] at h
    have hr : r = "https://h/" ++ x := by injection h with h2; exact h2.symm
    subst hr
    have hstart : jsStartsWith ("https://h/" ++ x) "https://" = true := rfl
    exact ⟨startsWith_https_not_slashes hstart, by rw [if_pos hstart]⟩

/-- Witness for C5: a concrete double application collapses. -/
theorem zhihu_C5_witness :
    normalizeUrl resolverEnv (normalizeUrl resolverEnv "a/b" "https://www.zhihu.com/x")
        "https://www.zhihu.com/x" =
      normalizeUrl resolverEnv "a/b" "https://www.zhihu.com/x" :=
  zhihu_C5 resolverEnv "a/b" "https://www.zhihu.com/x" (Or.inr rfl) idemResolver_ok

/-! ## C7: the API fallback client never raises and fails to null -/

/-- Evaluation of `fetchZhihuArticleDetailsByApi` on a successful, well-typed
API response. -/
theorem api_client_success (env : JsEnv) (url : String) (data : JVal) (s u : String)
    (hid : extractZhihuArticleId env url ≠ "")
    (hapi : env.fetchJson (articleApiUrl (extractZhihuArticleId env url)) = some data)
    (hdata : truthy data = true)
    (hcontent : getField data "content" = .jstr s)
    (hs : jsTrim s ≠ "")
    (hurl : jsOr (getField data "url")
      (.jstr ("https://zhuanlan.zhihu.com/p/" ++ extractZhihuArticleId env url)) = .jstr u) :
    fetchZhihuArticleDetailsByApi env url =
      some { title := jsOr (getField data "title") (.jstr ""),
             author := jsOr (optChain (getField data "author") "name") (.jstr ""),
             date := parseIsoDate (jsOr (getField data "updated") (getField data "created")),
             url := normalizeUrl env u,
             content := .fromHtml s } := by
  unfold fetchZhihuArticleDetailsByApi
  rw [if_neg hid, hapi]
  try dsimp only
  simp only [hdata, Bool.not_true, Bool.false_eq_true, if_false]
  rw [hcontent]
  try dsimp only
  rw [if_neg hs]
  have hsne : ¬ s = "" := fun he => hs (by rw [he]; rfl)
  have hbuild : buildContentElementFromHtml (.jstr s) = some (ContentEl.fromHtml s) := by
    simp only [buildContentElementFromHtml]
    rw [if_neg hsne]
  rw [hbuild]
  try dsimp only
  rw [hurl]
  try rfl

/-- C7: every failure path of `fetchZhihuArticleDetailsByApi` (no extractable
numeric id, rejected/unparsable API response, missing/non-string/blank
`content`) yields `none`, and a non-`none` result implies the response
carried a non-blank string `content`.  Totality (never raises) is embodied by
the function being a total Lean function into `Option`. -/
theorem zhihu_C7 (env : JsEnv) (url : String) :
    (extractZhihuArticleId env url = "" → fetchZhihuArticleDetailsByApi env url = none) ∧
    (env.fetchJson (articleApiUrl (extractZhihuArticleId env url)) = none →
      fetchZhihuArticleDetailsByApi env url = none) ∧
    (∀ data, env.fetchJson (articleApiUrl (extractZhihuArticleId env url)) = some data →
      itemHasContent data = false → fetchZhihuArticleDetailsByApi env url = none) ∧
    (∀ r, fetchZhihuArticleDetailsByApi env url = some r →
      ∃ data s, env.fetchJson (articleApiUrl (extractZhihuArticleId env url)) = some data ∧
        getField data "content" = .jstr s ∧ jsTrim s ≠ "") := by
  refine ⟨?_, ?_, ?_, ?_⟩
  · intro h
    simp [fetchZhihuArticleDetailsByApi, h]
  · intro h
    by_cases hid : extractZhihuArticleId env url = ""
    · simp [fetchZhihuArticleDetailsByApi, hid]
    · simp [fetchZhihuArticleDetailsByApi, hid, h]
  · intro data hj hfalse
    by_cases hid : extractZhihuArticleId env url = ""
    · simp [fetchZhihuArticleDetailsByApi, hid]
    · unfold fetchZhihuArticleDetailsByApi
      rw [if_neg hid, hj]
      try dsimp only
      by_cases htr : truthy data = true
      · simp only [htr, Bool.not_true, Bool.false_eq_true, if_false]
        cases hc : getField data "content" with
        | jstr s =>
          have hts : jsTrim s = "" := by
            unfold itemHasContent at hfalse
            rw [htr, hc] at hfalse
            simpa using hfalse
          try dsimp only
          rw [if_pos hts]
        | jnull => rfl
        | jundefined => rfl
        | jbool b => rfl
        | jnum n => rfl
        | jobj fs => rfl
      · have htrf : truthy data = false := by simpa using htr
        simp [htrf]
  · intro r hr
    unfold fetchZhihuArticleDetailsByApi at hr
    by_cases hid : extractZhihuArticleId env url = ""
    · rw [if_pos hid] at hr
      exact absurd hr (by simp)
    rw [if_neg hid] at hr
    cases hj : env.fetchJson (articleApiUrl (extractZhihuArticleId env url)) with
    | none =>
      rw [hj] at hr
      exact absurd hr (by simp)
    | some data =>
      rw [hj] at hr
      try dsimp only at hr
      by_cases htr : truthy data = true
      · simp only [htr, Bool.not_true, Bool.false_eq_true, if_false] at hr
        cases hc : getField data "content" with
        | jstr s =>
          rw [hc] at hr
          try dsimp only at hr
          by_cases hts : jsTrim s = ""
          · rw [if_pos hts] at hr
            exact absurd hr (by simp)
          · exact ⟨data, s, rfl, hc, hts⟩
        | jnull => rw [hc] at hr; exact absurd hr (by simp)
        | jundefined => rw [hc] at hr; exact absurd hr (by simp)
        | jbool b => rw [hc] at hr; exact absurd hr (by simp)
        | jnum n => rw [hc] at hr; exact absurd hr (by simp)
        | jobj fs => rw [hc] at hr; exact absurd hr (by simp)
      · have htrf : truthy data = false := by simpa using htr
        simp only [htrf, Bool.not_false, if_true] at hr
        exact absurd hr (by simp)

/-- An environment whose API returns a content-bearing article, for the C7
and C2 witnesses. -/
def apiEnv : JsEnv :=
  { sampleEnv with
    fetchJson := fun _ =>
      some (.jobj [("content", .jstr "<p>hi</p>"), ("title", .jstr "T")]) }

/-- Witness for C7: a URL with no article id fails to null, and a successful
response yields a record only because `content` is a non-blank string. -/
theorem zhihu_C7_witness :
    fetchZhihuArticleDetailsByApi sampleEnv "https://example.com/x" = none ∧
    ∃ data s,
      apiEnv.fetchJson (articleApiUrl
        (extractZhihuArticleId apiEnv "https://zhuanlan.zhihu.com/p/123")) = some data ∧
      getField data "content" = .jstr s ∧ jsTrim s ≠ "" :=
  ⟨(zhihu_C7 sampleEnv "https://example.com/x").1 (by decide),
   (zhihu_C7 apiEnv "https://zhuanlan.zhihu.com/p/123").2.2.2
     { title := .jstr "T", author := .jstr "", date := "",
       url := "https://zhuanlan.zhihu.com/p/123", content := .fromHtml "<p>hi</p>" }
     rfl⟩

/-! ## C2: document-fetch failure falls back to the API wholesale -/

/-- C2: when the document fetch rejects but the URL yields a numeric article
id and the API answers with a non-blank string `content` (and a string `url`
field after the `||` default), `fetchZhihuArticleDetails` returns a record
every field of which is computed from the API response alone. -/
theorem zhihu_C2 (env : JsEnv) (url : String) (data : JVal) (s u : String)
    (hdoc : env.fetchDoc url = none)
    (hid : extractZhihuArticleId env url ≠ "")
    (hapi : env.fetchJson (articleApiUrl (extractZhihuArticleId env url)) = some data)
    (hdata : truthy data = true)
    (hcontent : getField data "content" = .jstr s)
    (hs : jsTrim s ≠ "")
    (hurl : jsOr (getField data "url")
      (.jstr ("https://zhuanlan.zhihu.com/p/" ++ extractZhihuArticleId env url)) = .jstr u) :
    fetchZhihuArticleDetails env url =
      some { title := jsOr (getField data "title") (.jstr ""),
             author := jsOr (optChain (getField data "author") "name") (.jstr ""),
             date := parseIsoDate (jsOr (getField data "updated") (getField data "created")),
             url := normalizeUrl env u,
             content := .fromHtml s } := by
  unfold fetchZhihuArticleDetails
  rw [hdoc, api_client_success env url data s u hid hapi hdata hcontent hs hurl]

/-- Environment for the C2 witness: the document fetch always rejects. -/
def c2Env : JsEnv := { apiEnv with fetchDoc := fun _ => none }

/-- Witness for C2 at a concrete article URL. -/
theorem zhihu_C2_witness :
    fetchZhihuArticleDetails c2Env "https://zhuanlan.zhihu.com/p/123" =
      some { title := .jstr "T", author := .jstr "", date := "",
             url := "https://zhuanlan.zhihu.com/p/123",
             content := .fromHtml "<p>hi</p>" } := by
  have h := zhihu_C2 c2Env "https://zhuanlan.zhihu.com/p/123"
    (.jobj [("content", .jstr "<p>hi</p>"), ("title", .jstr "T")])
    "<p>hi</p>" "https://zhuanlan.zhihu.com/p/123"
    rfl (by decide) rfl rfl rfl (by decide) rfl
  rw [h]
  rfl

/-! ## C1: truncation heuristic and embedded-state overlay -/

/-- The insufficiency condition as the specification words it: content element
absent, trimmed visible text below the 200-character threshold, or a read-more
marker (button element or the read-more phrase). -/
def specInsufficient (content : Option Elem) : Bool :=
  match content with
  | none => true
  | some el =>
    decide ((jsTrim el.textContent).length < 200) || el.hasMoreButton ||
      containsSub (jsTrim el.textContent) "阅读全文"

/-- C1: the DOM extraction is judged insufficient exactly under the spec's
condition, and when it is insufficient and the embedded-state extractor
returns a record, each non-empty field of that record overwrites the
DOM-derived one while empty fields retain the DOM value (the final URL is
normalized as in the source). -/
theorem zhihu_C1 (env : JsEnv) (d : Doc) (url : String) (fb : FallbackRecord)
    (hins : shouldUseFallback (domContent d) = true)
    (hfb : extractFromInitialData env d (orElseStr (domCanonicalUrl d url) url) = some fb) :
    (∀ c : Option Elem, shouldUseFallback c = specInsufficient c) ∧
    extractContentFromDocument env (some d) url =
      some { title := jsOr fb.title (.jstr (domTitle d)),
             author := jsOr fb.author (.jstr (domAuthor d)),
             date := orElseStr fb.date (domDate d),
             url := normalizeUrl env
               (orElseStr (orElseStr fb.url (domCanonicalUrl d url)) url),
             content := fb.content } := by
  constructor
  · intro c
    cases c with
    | none => rfl
    | some el =>
      show (if (jsTrim el.textContent).length < 200 then true
        else el.hasMoreButton || containsSub (jsTrim el.textContent) "阅读全文") = _
      unfold specInsufficient
      by_cases hlen : (jsTrim el.textContent).length < 200
      · rw [if_pos hlen]
        simp [hlen]
      · rw [if_neg hlen]
        simp [hlen]
  · show (match
        (if shouldUseFallback (domContent d) then
          match extractFromInitialData env d (orElseStr (domCanonicalUrl d url) url) with
          | some fb2 =>
            (jsOr fb2.title (.jstr (domTitle d)), jsOr fb2.author (.jstr (domAuthor d)),
              orElseStr fb2.date (domDate d), orElseStr fb2.url (domCanonicalUrl d url),
              some fb2.content)
          | none => (.jstr (domTitle d), .jstr (domAuthor d), domDate d,
              domCanonicalUrl d url, (domContent d).map ContentEl.domElem)
        else (.jstr (domTitle d), .jstr (domAuthor d), domDate d,
            domCanonicalUrl d url, (domContent d).map ContentEl.domElem)) with
      | (t, a, dt, cu, c) =>
        match c with
        | none => none
        | some ce =>
          some ({ title := t, author := a, date := dt,
                  url := normalizeUrl env (orElseStr cu url),
                  content := ce } : ContentRecord)) = _
    rw [hins, if_pos rfl, hfb]

/-- Concrete document and embedded state for the C1 witness: short DOM
content triggers the fallback; the entity carries title, content and URL but
no author, so the DOM author must be retained. -/
def c1Doc : Doc :=
  { h1PostTitle := some "T0", h1QuestionTitle := none, titleTag := none,
    postRichTextContainer := some ⟨"short", false⟩, richContentInner := none,
    authorMetaName := some "A0", authorInfoName := none, authorMetaItemprop := none,
    datePublishedMeta := none, dateModifiedMeta := none, contentItemTime := none,
    metaUrl := none, initialDataScript := some "state" }

def c1Json : JVal :=
  .jobj [("initialState", .jobj [("entities", .jobj [("articles", .jobj [("1",
    .jobj [("content", .jstr "<p>full</p>"), ("title", .jstr "T1"),
           ("url", .jstr "https://zhuanlan.zhihu.com/p/1")])])])])]

def c1Env : JsEnv := { sampleEnv with parseJson := fun _ => some c1Json }

/-- Witness for C1: the embedded title and content overwrite the DOM fields,
the empty embedded author leaves the DOM author in place. -/
theorem zhihu_C1_witness :
    extractContentFromDocument c1Env (some c1Doc) "https://zhuanlan.zhihu.com/p/1" =
      some { title := .jstr "T1", author := .jstr "A0", date := "",
             url := "https://zhuanlan.zhihu.com/p/1",
             content := .fromHtml "<p>full</p>" } := by
  have h := (zhihu_C1 c1Env c1Doc "https://zhuanlan.zhihu.com/p/1"
    ({ title := .jstr "T1", author := .jstr "", date := "",
       url := "https://zhuanlan.zhihu.com/p/1",
       content := .fromHtml "<p>full</p>" } : FallbackRecord)
    rfl rfl).2
  rw [h]
  rfl

/-! ## C8: embedded-state entity bucket search -/

/-- First content-bearing entity of a bucket, as the specification describes
it: the stored values of bucket `k`, searched in order. -/
def specBucketFirst (entities : JVal) (k : String) : Option JVal :=
  (objValues (getField entities k)).find? itemHasContent

/-- The key order the specification prescribes: the preferred buckets
`articles, answers, posts, zvideos` first, then the remaining stored keys. -/
def specSearchKeys (entities : JVal) : List String :=
  preferredKeys ++ (jsKeys entities).filter (fun k => !(preferredKeys.contains k))

theorem tryBuckets_eq_spec (entities : JVal) (k : String) :
    tryBuckets entities k = (specBucketFirst entities k).map (fun e => (k, e)) := by
  unfold tryBuckets specBucketFirst
  cases hb : getField entities k with
  | jobj fs => rfl
  | jnull => rfl
  | jundefined => rfl
  | jbool b => cases b <;> rfl
  | jnum n => simp [truthy, isObjectType, objValues]
  | jstr s => simp [truthy, isObjectType, objValues]

theorem findSome?_of_map (B : String → Option JVal) (l : List String) :
    l.findSome? (fun k => (B k).map (fun e => (k, e))) =
      (l.find? (fun k => (B k).isSome)).bind (fun k => (B k).map (fun e => (k, e))) := by
  induction l with
  | nil => rfl
  | cons hd tl ih =>
    cases hB : B hd with
    | none =>
      rw [List.findSome?_cons_of_isNone _ (by simp [hB]), ih, List.find?]
      simp [hB]
    | some v =>
      rw [List.findSome?_cons_of_isSome _ (by simp [hB]), List.find?]
      simp [hB]

/-- C8: the entity search visits the preferred buckets `articles, answers,
posts, zvideos` in order and then the remaining stored keys, returning the
first content-bearing entity of the first qualifying bucket; it returns null
iff no bucket anywhere holds a content-bearing entity. -/
theorem zhihu_C8 (entities : JVal) :
    findEntityWithContent entities preferredKeys =
      ((specSearchKeys entities).find?
          (fun k => (specBucketFirst entities k).isSome)).bind
        (fun k => (specBucketFirst entities k).map (fun e => (k, e))) ∧
    (findEntityWithContent entities preferredKeys = none ↔
      ∀ k ∈ specSearchKeys entities, specBucketFirst entities k = none) := by
  have hmain : findEntityWithContent entities preferredKeys =
      ((specSearchKeys entities).find?
          (fun k => (specBucketFirst entities k).isSome)).bind
        (fun k => (specBucketFirst entities k).map (fun e => (k, e))) := by
    unfold specSearchKeys
    by_cases hg : (truthy entities && isObjectType entities) = true
    · unfold findEntityWithContent
      rw [hg, if_pos rfl]
      rw [show tryBuckets entities =
        (fun k => (specBucketFirst entities k).map (fun e => (k, e))) from
        funext (tryBuckets_eq_spec entities)]
      rw [← findSome?_of_map (fun k => specBucketFirst entities k)
        (preferredKeys ++ (jsKeys entities).filter (fun k => !(preferredKeys.contains k)))]
      rw [List.findSome?_append]
      cases hpref : preferredKeys.findSome?
          (fun k => (specBucketFirst entities k).map (fun e => (k, e))) with
      | some v => rfl
      | none => rfl
    · have hgf : (truthy entities && isObjectType entities) = false := by
        simpa using hg
      unfold findEntityWithContent
      rw [hgf]
      have hB : ∀ k, specBucketFirst entities k = none := by
        intro k
        unfold specBucketFirst
        have hcase : getField entities k = .jundefined ∨ entities = .jnull := by
          cases entities with
          | jobj fs => simp [truthy, isObjectType] at hgf
          | jnull => exact Or.inr rfl
          | jundefined => exact Or.inl rfl
          | jbool b => exact Or.inl rfl
          | jnum n => exact Or.inl rfl
          | jstr s => exact Or.inl rfl
        rcases hcase with h | h
        · rw [h]; rfl
        · subst h; rfl
      have hfind : ((preferredKeys ++
          (jsKeys entities).filter (fun k => !(preferredKeys.contains k))).find?
          (fun k => (specBucketFirst entities k).isSome)) = none := by
        rw [List.find?_eq_none]
        intro k _
        simp [hB k]
      rw [hfind]
      rfl
  refine ⟨hmain, ?_⟩
  rw [hmain]
  constructor
  · intro hnone k hk
    cases hv : specBucketFirst entities k with
    | none => rfl
    | some v =>
      exfalso
      have hex : ∃ j ∈ specSearchKeys entities,
          (fun j => (specBucketFirst entities j).isSome) j = true :=
        ⟨k, hk, by simp [hv]⟩
      obtain ⟨j, hj⟩ := Option.isSome_iff_exists.mp (List.find?_isSome.mpr hex)
      rw [hj] at hnone
      have hjp : (specBucketFirst entities j).isSome = true := by
        have := List.find?_some hj
        simpa using this
      obtain ⟨w, hw⟩ := Option.isSome_iff_exists.mp hjp
      rw [Option.some_bind, hw] at hnone
      simp at hnone
  · intro hall
    have hfind : (specSearchKeys entities).find?
        (fun k => (specBucketFirst entities k).isSome) = none := by
      rw [List.find?_eq_none]
      intro k hk
      simp [hall k hk]
    rw [hfind]
    rfl

/-! ## C9: image inlining on already-inlined fragments -/

theorem jsStartsWith_data_ne_empty {s : String}
    (h : jsStartsWith s "data:" = true) : s ≠ "" :=
  jsStartsWith_ne_empty (by decide) h

/-- Amendment of C9: if every image's `src` attribute itself is a `data:` URL
and no image carries a `srcset` attribute, the inliner performs no network
request and leaves both the fragment and the cache/request state unchanged. -/
theorem zhihu_C9_amended (env : JsEnv) (st : ImgState) (base : String)
    (imgs : List Img)
    (h : ∀ img ∈ imgs, (∃ s, img.src = some s ∧ jsStartsWith s "data:" = true) ∧
      img.srcset = none) :
    convertImagesToDataUrls env st imgs base = (imgs, st) := by
  revert h
  induction imgs generalizing st with
  | nil =>
    intro h
    rfl
  | cons img rest ih =>
    intro h
    obtain ⟨⟨s, hsrc, hdat⟩, hset⟩ := h img (List.mem_cons_self img rest)
    have hs : s ≠ "" := jsStartsWith_data_ne_empty hdat
    have heff : imgEffectiveSrc img = some s := by
      unfold imgEffectiveSrc attrOr
      rw [hsrc]
      try dsimp only
      try rw [if_neg hs]
      try dsimp only
      try rw [if_neg hs]
      try rfl
    have hnorm : normalizeUrl env s base = s := normalizeUrl_eq_data env s base hs hdat
    have hfetch : fetchImageAsDataUrl env st s base = (some s, st) := by
      unfold fetchImageAsDataUrl
      rw [hnorm, if_neg hs, if_pos hdat]
    have hproc : processImage env base st img = (img, st) := by
      unfold processImage
      rw [heff]
      try dsimp only
      rw [hfetch]
      try dsimp only
      rw [if_pos hs]
      cases img with
      | mk a b c dd e =>
        have ha : a = some s := hsrc
        have he2 : e = none := hset
        subst ha
        subst he2
        rfl
    have hrest := ih st (fun i hi => h i (List.mem_cons_of_mem img hi))
    show ((processImage env base st img).1 ::
        (convertImagesToDataUrls env (processImage env base st img).2 rest base).1,
      (convertImagesToDataUrls env (processImage env base st img).2 rest base).2) =
      (img :: rest, st)
    rw [hproc]
    try dsimp only
    rw [hrest]

/-- The image refuting C9 as stated: its effective source attribute (via
`data-original`) is already a `data:` URL, yet running the inliner adds a
`src` attribute and removes the `srcset` attribute. -/
def c9Img : Img :=
  { src := none, dataOriginal := some "data:image/png;base64,AA",
    dataSrc := none, dataActualsrc := none, srcset := some "img.png 1x" }

/-- Counterexample to C9 as stated: a fragment whose every image has a
`data:` effective source, on which the inliner issues no request but does
change the fragment. -/
theorem zhihu_C9_counterexample :
    imgEffectiveSrc c9Img = some "data:image/png;base64,AA" ∧
    jsStartsWith "data:image/png;base64,AA" "data:" = true ∧
    (convertImagesToDataUrls sampleEnv ⟨[], []⟩ [c9Img] "https://www.zhihu.com/").2.requests
      = [] ∧
    (convertImagesToDataUrls sampleEnv ⟨[], []⟩ [c9Img] "https://www.zhihu.com/").1
      ≠ [c9Img] := by
  refine ⟨rfl, rfl, rfl, ?_⟩
  decide

/-- Witness for the amended C9 on a concrete one-image fragment. -/
theorem zhihu_C9_witness :
    convertImagesToDataUrls sampleEnv ⟨[], []⟩
      [{ src := some "data:image/gif;base64,R0", dataOriginal := none,
         dataSrc := none, dataActualsrc := none, srcset := none }]
      "https://www.zhihu.com/" =
      ([{ src := some "data:image/gif;base64,R0", dataOriginal := none,
          dataSrc := none, dataActualsrc := none, srcset := none }], ⟨[], []⟩) :=
  zhihu_C9_amended sampleEnv ⟨[], []⟩ "https://www.zhihu.com/" _
    (fun img hm => by
      simp only [List.mem_singleton] at hm
      subst hm
      exact ⟨⟨"data:image/gif;base64,R0", rfl, rfl⟩, rfl⟩)

/-! ## C4: seconds / milliseconds / ISO-string agreement in `parseIsoDate` -/

theorem mem_dropWhile_of_not (c : Char) (l : List Char) (hc : jsWs c = false) :
    c ∈ l → c ∈ l.dropWhile jsWs := by
  induction l with
  | nil => intro h; exact absurd h (List.not_mem_nil c)
  | cons a t ih =>
    intro hm
    rw [List.dropWhile_cons]
    by_cases ha : jsWs a = true
    · rw [if_pos ha]
      apply ih
      cases List.mem_cons.mp hm with
      | inl he => subst he; rw [hc] at ha; exact absurd ha (by decide)
      | inr ht => exact ht
    · rw [if_neg ha]
      exact hm

theorem mem_jsTrimList (c : Char) (l : List Char) (hc : jsWs c = false)
    (hm : c ∈ l) : c ∈ jsTrimList l := by
  unfold jsTrimList
  rw [List.mem_reverse]
  apply mem_dropWhile_of_not c _ hc
  rw [List.mem_reverse]
  exact mem_dropWhile_of_not c l hc hm

theorem mem_isoChars_T (ms : Int) : 'T' ∈ isoChars ms := by
  unfold isoChars
  exact List.mem_append_right _ (List.mem_cons_self _ _)

/-- C4 (counterexample): the claim fails at the unix-second timestamp
`t = 10^6`.  Both `t` and `t * 1000` lie below the `1e12` threshold of the
numeric branch, so both get rescaled by 1000 and the two calls name different
days (`1970-01-12` versus `2001-09-09`). -/
theorem zhihu_C4_counterexample :
    parseIsoDate (.jnum 1000000) ≠ parseIsoDate (.jnum (1000000 * 1000)) := by
  decide

theorem parseIsoDate_isoString (ms : Int) (h0 : 0 ≤ ms)
    (h1 : ms ≤ 8640000000000000) :
    parseIsoDate (.jstr (isoStringOfMs ms)) = dateFromMs ms := by
  have hne : ¬ isoStringOfMs ms = "" := by
    intro h
    have hd : isoChars ms = [] := congrArg String.data h
    have hT := mem_isoChars_T ms
    rw [hd] at hT
    exact absurd hT (List.not_mem_nil _)
  have hall : ((jsTrim (isoStringOfMs ms)).data.all Char.isDigit) = false := by
    cases hT : ((jsTrim (isoStringOfMs ms)).data.all Char.isDigit) with
    | false => rfl
    | true =>
      exact absurd (List.all_eq_true.mp hT 'T'
        (mem_jsTrimList 'T' (isoChars ms) (by decide) (mem_isoChars_T ms)))
        (by decide)
  have hcond : ¬ (((!(jsTrim (isoStringOfMs ms)).isEmpty) &&
      (jsTrim (isoStringOfMs ms)).data.all Char.isDigit) = true) := by
    simp [hall]
  show (if isoStringOfMs ms = "" then ""
    else
      if (!(jsTrim (isoStringOfMs ms)).isEmpty) &&
          (jsTrim (isoStringOfMs ms)).data.all Char.isDigit then
        parseIsoDateNum ((digitsVal (jsTrim (isoStringOfMs ms)).data : Nat) : Int)
      else
        match jsDateParse (isoStringOfMs ms) with
        | none => ""
        | some m => dateFromMs m) = dateFromMs ms
  rw [if_neg hne, if_neg hcond]
  have hp : jsDateParse (isoStringOfMs ms) = some ms := parseIso_roundtrip ms h0 h1
  rw [hp]

/-- C4 (amended): for every unix-second timestamp `t` in the realistic range
`10^9 ≤ t < 10^12`, `parseIsoDate` gives the same date for the seconds value
`t`, for the milliseconds value `t * 1000`, and for the full ISO string of
that instant. -/
theorem zhihu_C4_amended (t : Int) (h1 : 1000000000 ≤ t)
    (h2 : t < 1000000000000) :
    parseIsoDate (.jnum t) = parseIsoDate (.jnum (t * 1000)) ∧
    parseIsoDate (.jnum t) = parseIsoDate (.jstr (isoStringOfMs (t * 1000))) := by
  have hnum : parseIsoDate (.jnum t) = dateFromMs (t * 1000) := by
    show parseIsoDateNum t = _
    unfold parseIsoDateNum
    rw [if_pos h2]
  have hnum2 : parseIsoDate (.jnum (t * 1000)) = dateFromMs (t * 1000) := by
    show parseIsoDateNum (t * 1000) = _
    unfold parseIsoDateNum
    rw [if_neg (by omega)]
  have hstr : parseIsoDate (.jstr (isoStringOfMs (t * 1000))) =
      dateFromMs (t * 1000) :=
    parseIsoDate_isoString (t * 1000) (by omega) (by omega)
  exact ⟨hnum.trans hnum2.symm, hnum.trans hstr.symm⟩

/-- C4 witness: the amended claim evaluated at `t = 1700000000`
(2023-11-14). -/
theorem zhihu_C4_witness :
    (1000000000 : Int) ≤ 1700000000 ∧ (1700000000 : Int) < 1000000000000 ∧
    (parseIsoDate (.jnum 1700000000) = parseIsoDate (.jnum (1700000000 * 1000)) ∧
     parseIsoDate (.jnum 1700000000) =
       parseIsoDate (.jstr (isoStringOfMs (1700000000 * 1000)))) :=
  ⟨by decide, by decide, zhihu_C4_amended 1700000000 (by decide) (by decide)⟩
